import Mathlib

/-!
Verification of the prin-prinan-printer-server repository (src/index.js).

The source file contains two concatenated variants of the server:
variant 1 (the mono/color split dispatcher) and variant 2 (the spool
monitor, correlation map and webhook notifier).  Pure computations are
embedded directly; effectful code (filesystem, subprocesses, HTTP) is
embedded as pure state-passing functions whose external outcomes are
oracle parameters, and whose observable effects (webhook invocations,
unlink targets, result entries) are returned explicitly.

Strings are processed through `List Char` helpers mirroring the exact
JavaScript primitives used by the source (`split`, `trim`, `parseInt`,
`includes`, `path.basename`, `path.extname`, `toLowerCase`).
-/

set_option autoImplicit false

namespace PrinServer

/-- Model of JavaScript `String.prototype.split` with a single-character
separator, on character lists. `"".split(sep)` is `[""]`. -/
def splitOnCharL (sep : Char) : List Char → List (List Char)
  | [] => [[]]
  | c :: cs =>
    match splitOnCharL sep cs with
    | [] => if c = sep then [[], []] else [[c]]
    | r :: nrs => if c = sep then [] :: r :: nrs else (c :: r) :: nrs

/-- Model of JavaScript `String.prototype.trim`: drop whitespace from both
ends. -/
def jsTrimL (cs : List Char) : List Char :=
  (((cs.dropWhile Char.isWhitespace).reverse).dropWhile Char.isWhitespace).reverse

/-- Numeric value of a list of decimal digit characters. -/
def digitsVal (ds : List Char) : Nat :=
  ds.foldl (fun acc c => acc * 10 + (c.toNat - ('0').toNat)) 0

/-- Model of JavaScript `parseInt(s.trim(), 10)` returning `none` for `NaN`:
after trimming, an optional sign followed by at least one decimal digit;
parsing stops at the first non-digit. -/
def jsParseIntL (cs : List Char) : Option Int :=
  let t := jsTrimL cs
  let sr : Int × List Char :=
    match t with
    | '-' :: r => (-1, r)
    | '+' :: r => (1, r)
    | r => (1, r)
  let ds := sr.2.takeWhile Char.isDigit
  if ds.isEmpty then none else some (sr.1 * (digitsVal ds : Int))

/-- One comma-separated token of `parsePageRange` (src/index.js lines 77-89):
a dash token contributes the integers of the inclusive range that are
`≤ maxPages`; a plain token contributes its value when parseable and
`≤ maxPages`.  There is no lower-bound check in the source. -/
def parsePart (part : List Char) (maxPages : Int) : Finset Int :=
  if part.contains '-' then
    match (splitOnCharL '-' part).map jsParseIntL with
    | some s :: some e :: _ => (Finset.Icc s e).filter (fun i => i ≤ maxPages)
    | _ => ∅
  else
    match jsParseIntL part with
    | some p => if p ≤ maxPages then {p} else ∅
    | none => ∅

/-- Model of `parsePageRange` (src/index.js lines 73-91): the empty string
(falsy) yields the empty set; otherwise the union over the comma-separated
tokens. -/
def parsePageRange (rangeStr : String) (maxPages : Int) : Finset Int :=
  if rangeStr = "" then ∅
  else (splitOnCharL ',' rangeStr.toList).foldl
    (fun pages part => pages ∪ parsePart part maxPages) ∅

/-- Mono page set of the `monorange` branch of variant 1's `/print` handler
(src/index.js line 256). -/
def monoSet (monorange : String) (totalPages : Int) : Finset Int :=
  parsePageRange monorange totalPages

/-- Color page set of the `monorange` branch (src/index.js lines 257-261):
the pages `1..totalPages` not in the mono set. -/
def colorSet (monorange : String) (totalPages : Int) : Finset Int :=
  (Finset.Icc 1 totalPages).filter (fun i => i ∉ parsePageRange monorange totalPages)

/-- The shared `baseOptions` object assembled once per request from the
parameters (src/index.js lines 232-240): each field is set only when the
corresponding parameter is supplied.  `monochrome` and `pages` are never
put into `baseOptions` on the split path — they are set per submission. -/
structure BaseOptions where
  printer : Option String
  paperSize : Option String
  subset : Option String
  copies : Option Int
  orientation : Option String
  scale : Option String
  side : Option String
deriving DecidableEq, Repr

/-- One print submission issued by the split dispatcher: the spread of the
request's shared `baseOptions` (`...baseOptions` at src/index.js lines 272
and 282) plus the submission's own monochrome flag and its (sorted, as
produced by `toPageString`) page filter. -/
structure SplitJob where
  base : BaseOptions
  monochrome : Bool
  pages : List Int
deriving DecidableEq, Repr

/-- The submissions issued by the `monorange` branch (src/index.js lines
267-289): one mono job when the mono set is non-empty, then one color job
when the color set is non-empty, each spreading the same `baseOptions` and
adding its own monochrome flag and sorted page list. -/
def splitJobs (base : BaseOptions) (monorange : String) (totalPages : Int) :
    List SplitJob :=
  let m := monoSet monorange totalPages
  let c := colorSet monorange totalPages
  (if 0 < m.card then [⟨base, true, m.sort (· ≤ ·)⟩] else []) ++
  (if 0 < c.card then [⟨base, false, c.sort (· ≤ ·)⟩] else [])

example : parsePageRange "1-3,5,10" 6 = ({1, 2, 3, 5} : Finset Int) := by decide
example : parsePageRange "0" 6 = ({0} : Finset Int) := by decide
example : monoSet "0" 1 ∪ colorSet "0" 1 = ({0, 1} : Finset Int) := by decide

/-- Model of Node `path.basename`: the component after the last path
separator (both `/` and `\` are handled, as on win32). -/
def jsBasename (s : String) : String :=
  let a := (splitOnCharL '/' s.toList).getLastD s.toList
  let b := (splitOnCharL '\\' a).getLastD a
  ⟨b⟩

/-- Model of Node `path.extname`: the suffix of the basename from its last
dot, empty when there is no dot or the only dot starts the basename. -/
def jsExtname (s : String) : String :=
  let base := (jsBasename s).toList
  let rev := base.reverse
  if rev.contains '.' then
    let extRev := rev.takeWhile (fun c => c ≠ '.')
    if extRev.length + 1 = base.length then ""
    else ⟨'.' :: extRev.reverse⟩
  else ""

/-- Image extensions accepted by the server (src/index.js lines 14-23). -/
def IMG_EXTENSIONS : List String :=
  [".jpg", ".jpeg", ".png", ".tiff", ".tif", ".bmp", ".gif", ".webp"]

/-- Office-document extensions accepted by the server (src/index.js lines
25-38). -/
def DOC_EXTENSIONS : List String :=
  [".docx", ".doc", ".odt", ".ott", ".rtf", ".txt", ".xlsx", ".xls",
   ".ods", ".pptx", ".ppt", ".odp"]

/-- The allowed upload extensions (src/index.js line 40). -/
def ALLOWED_EXTS : List String := ".pdf" :: IMG_EXTENSIONS ++ DOC_EXTENSIONS

/-- Model of JavaScript `String.prototype.toLowerCase`, character by
character. -/
def jsToLower (s : String) : String := ⟨s.toList.map Char.toLower⟩

/-- Multer `fileFilter` acceptance test (src/index.js lines 49-60): the
lower-cased extension of the original filename must be in `ALLOWED_EXTS`. -/
def fileFilterAccepts (originalname : String) : Bool :=
  ALLOWED_EXTS.contains (jsToLower (jsExtname originalname))

/-- Oracle for the outcomes of the external conversion collaborators: the
LibreOffice subprocess result (exit error and presence of the produced
PDF), the sharp/pdfkit image pipeline result, and whether the renamed
intermediate input still exists when variant 2 re-checks it. -/
structure ConvEnv where
  docExecError : Option String
  docOutputExists : Bool
  imgError : Option String
  intermediateExists : Bool
deriving DecidableEq, Repr

/-- Model of variant 1's `convertDocWithLibreOffice` (src/index.js lines
96-138): rejects when the subprocess reports an error; otherwise resolves
with the output path when the generated PDF exists and rejects when it is
absent. -/
def convertDocWithLibreOffice1 (env : ConvEnv) (outputPath : String) :
    Except String String :=
  match env.docExecError with
  | some e =>
      .error ("LibreOffice conversion failed. Is it installed? Details: " ++ e)
  | none =>
      if env.docOutputExists then .ok outputPath
      else .error "LibreOffice finished but output PDF was not found."

/-- Model of variant 2's `convertDocWithLibreOffice` (src/index.js lines
573-602): same structure as variant 1 with a 500 ms bounded wait before the
output-existence check. -/
def convertDocWithLibreOffice2 (env : ConvEnv) (outputPath : String) :
    Except String String :=
  match env.docExecError with
  | some e => .error ("LibreOffice failed: " ++ e)
  | none =>
      if env.docOutputExists then .ok outputPath
      else .error "LibreOffice output not found."

/-- Model of `convertImageToPdf` (src/index.js lines 143-179 and 604-627):
resolves with the output path unless the image pipeline fails. -/
def convertImageToPdf (env : ConvEnv) (outputPath : String) :
    Except String String :=
  match env.imgError with
  | some e => .error e
  | none => .ok outputPath

deriving instance DecidableEq for Except

/-- Observable outcome of an `ensurePdf` call: its returned path or thrown
error, the renames it performed, and the unlink calls it issued. -/
structure EnsureOut where
  result : Except String String
  renames : List (String × String)
  unlinks : List String
deriving DecidableEq, Repr

/-- Model of variant 1's `ensurePdf` (src/index.js lines 185-211).  A `.pdf`
extension passes through.  Otherwise the upload is renamed to carry its
true extension and converted; on conversion success the renamed
intermediate is unlinked, while a thrown conversion error propagates
before the unlink statement runs.  Unknown extensions throw. -/
def ensurePdf1 (env : ConvEnv) (originalname fpath : String) : EnsureOut :=
  let ext := jsToLower (jsExtname originalname)
  if ext = ".pdf" then ⟨.ok fpath, [], []⟩
  else
    let correctExtPath := fpath ++ ext
    let outputPdfPath := fpath ++ ".converted.pdf"
    if DOC_EXTENSIONS.contains ext then
      match convertDocWithLibreOffice1 env outputPdfPath with
      | .ok out => ⟨.ok out, [(fpath, correctExtPath)], [correctExtPath]⟩
      | .error e => ⟨.error e, [(fpath, correctExtPath)], []⟩
    else if IMG_EXTENSIONS.contains ext then
      match convertImageToPdf env outputPdfPath with
      | .ok out => ⟨.ok out, [(fpath, correctExtPath)], [correctExtPath]⟩
      | .error e => ⟨.error e, [(fpath, correctExtPath)], []⟩
    else ⟨.error ("Unhandled file extension in processing: " ++ ext),
          [(fpath, correctExtPath)], []⟩

/-- Model of variant 2's `ensurePdf` (src/index.js lines 629-646).  Same as
variant 1 except the unlink of the renamed intermediate is guarded by an
`existsSync` check, and an unknown extension returns the original (already
renamed-away) path instead of throwing. -/
def ensurePdf2 (env : ConvEnv) (originalname fpath : String) : EnsureOut :=
  let ext := jsToLower (jsExtname originalname)
  if ext = ".pdf" then ⟨.ok fpath, [], []⟩
  else
    let correctExtPath := fpath ++ ext
    let outputPdfPath := fpath ++ ".converted.pdf"
    if DOC_EXTENSIONS.contains ext then
      match convertDocWithLibreOffice2 env outputPdfPath with
      | .ok out => ⟨.ok out, [(fpath, correctExtPath)],
          if env.intermediateExists then [correctExtPath] else []⟩
      | .error e => ⟨.error e, [(fpath, correctExtPath)], []⟩
    else if IMG_EXTENSIONS.contains ext then
      match convertImageToPdf env outputPdfPath with
      | .ok out => ⟨.ok out, [(fpath, correctExtPath)],
          if env.intermediateExists then [correctExtPath] else []⟩
      | .error e => ⟨.error e, [(fpath, correctExtPath)], []⟩
    else ⟨.ok fpath, [(fpath, correctExtPath)], []⟩

example : jsExtname "report.DOCX" = ".DOCX" := by decide
example : jsBasename "uploads/abc123.converted.pdf" = "abc123.converted.pdf" := by
  decide
example : fileFilterAccepts "evil.xyz" = false := by decide
example : fileFilterAccepts "a.PdF" = true := by decide

section AssocMap

variable {κ ν : Type} [DecidableEq κ]

/-- First value stored under key `k` in an association list.  Models lookup
in a JavaScript `Map` or PowerShell hashtable (keys are unique there, so
the first match is the match). -/
def lookupA (st : List (κ × ν)) (k : κ) : Option ν :=
  match st with
  | [] => none
  | kv :: rest => if kv.1 = k then some kv.2 else lookupA rest k

/-- Model of `Map.set` / hashtable assignment: replace the value in place
when the key is present (JavaScript `Map.set` keeps the original insertion
position), append a fresh entry otherwise. -/
def setKeyA (st : List (κ × ν)) (k : κ) (v : ν) : List (κ × ν) :=
  if st.any (fun kv => kv.1 = k) then
    st.map (fun kv => if kv.1 = k then (k, v) else kv)
  else st ++ [(k, v)]

/-- Model of `Map.delete` / hashtable `Remove`. -/
def delKeyA (st : List (κ × ν)) (k : κ) : List (κ × ν) :=
  st.filter (fun kv => kv.1 ≠ k)

theorem lookupA_append (a b : List (κ × ν)) (i : κ) :
    lookupA (a ++ b) i =
      match lookupA a i with
      | some v => some v
      | none => lookupA b i := by
  induction a with
  | nil => simp [lookupA]
  | cons kv rest ih =>
      by_cases hk : kv.1 = i <;> simp [lookupA, hk, ih]

theorem lookupA_mapUpd_self (st : List (κ × ν)) (k : κ) (v : ν) :
    lookupA (st.map (fun kv => if kv.1 = k then (k, v) else kv)) k =
      (lookupA st k).map (fun _ => v) := by
  induction st with
  | nil => simp [lookupA]
  | cons kv rest ih =>
      by_cases hk : kv.1 = k <;> simp [lookupA, hk, ih]

theorem lookupA_mapUpd_ne (st : List (κ × ν)) (k i : κ) (v : ν) (h : i ≠ k) :
    lookupA (st.map (fun kv => if kv.1 = k then (k, v) else kv)) i =
      lookupA st i := by
  induction st with
  | nil => simp [lookupA]
  | cons kv rest ih =>
      by_cases hk : kv.1 = k
      · simp [lookupA, hk, Ne.symm h, ih]
      · by_cases hi : kv.1 = i <;> simp [lookupA, hk, hi, h, ih]

theorem anyKey_isSome (st : List (κ × ν)) (k : κ) :
    (st.any (fun kv => kv.1 = k)) = (lookupA st k).isSome := by
  induction st with
  | nil => rfl
  | cons kv rest ih =>
      by_cases hk : kv.1 = k <;> simp [lookupA, hk, ih]

theorem lookupA_setKeyA_self (st : List (κ × ν)) (k : κ) (v : ν) :
    lookupA (setKeyA st k v) k = some v := by
  unfold setKeyA
  split
  · rename_i h
    rw [anyKey_isSome] at h
    rw [lookupA_mapUpd_self]
    cases hkv : lookupA st k with
    | none => rw [hkv] at h; simp at h
    | some w => simp
  · rename_i h
    rw [anyKey_isSome] at h
    rw [lookupA_append]
    cases hkv : lookupA st k with
    | none => simp [lookupA]
    | some w => rw [hkv] at h; simp at h

theorem lookupA_setKeyA_ne (st : List (κ × ν)) (k i : κ) (v : ν) (h : i ≠ k) :
    lookupA (setKeyA st k v) i = lookupA st i := by
  unfold setKeyA
  split
  · exact lookupA_mapUpd_ne st k i v h
  · rw [lookupA_append]
    cases hkv : lookupA st i with
    | none => simp [lookupA, Ne.symm h]
    | some w => simp

theorem lookupA_delKeyA_self (st : List (κ × ν)) (k : κ) :
    lookupA (delKeyA st k) k = none := by
  induction st with
  | nil => rfl
  | cons kv rest ih =>
      by_cases hk : kv.1 = k
      · simpa [delKeyA, List.filter_cons, hk] using ih
      · simpa [delKeyA, List.filter_cons, lookupA, hk] using ih

theorem lookupA_delKeyA_ne (st : List (κ × ν)) (k i : κ) (h : i ≠ k) :
    lookupA (delKeyA st k) i = lookupA st i := by
  induction st with
  | nil => rfl
  | cons kv rest ih =>
      by_cases hk : kv.1 = k
      · simpa [delKeyA, List.filter_cons, lookupA, hk, Ne.symm h] using ih
      · by_cases hi : kv.1 = i
        · simp [delKeyA, List.filter_cons, lookupA, hk, hi, h]
        · simpa [delKeyA, List.filter_cons, lookupA, hk, hi, h] using ih

theorem filter_mapUpd (st : List (κ × ν)) (k : κ) (v : ν) (p : κ → Bool)
    (hp : p k = false) :
    (st.map (fun kv => if kv.1 = k then (k, v) else kv)).filter
        (fun kv => p kv.1) =
      st.filter (fun kv => p kv.1) := by
  induction st with
  | nil => rfl
  | cons kv rest ih =>
      by_cases hk : kv.1 = k
      · simp [List.filter_cons, hk, hp, ih]
      · simp [List.filter_cons, hk, ih]

theorem filter_setKeyA (st : List (κ × ν)) (k : κ) (v : ν) (p : κ → Bool)
    (hp : p k = false) :
    (setKeyA st k v).filter (fun kv => p kv.1) = st.filter (fun kv => p kv.1) := by
  unfold setKeyA
  split
  · exact filter_mapUpd st k v p hp
  · simp [List.filter_append, List.filter_cons, hp]

theorem keys_mapUpd (st : List (κ × ν)) (k : κ) (v : ν) :
    (st.map (fun kv => if kv.1 = k then (k, v) else kv)).map (·.1) =
      st.map (·.1) := by
  induction st with
  | nil => rfl
  | cons kv rest ih =>
      by_cases hk : kv.1 = k <;> simp [hk, ih]

theorem keys_setKeyA (st : List (κ × ν)) (k : κ) (v : ν) :
    (setKeyA st k v).map (·.1) = st.map (·.1) ∨
    (setKeyA st k v).map (·.1) = st.map (·.1) ++ [k] := by
  unfold setKeyA
  split
  · exact Or.inl (keys_mapUpd st k v)
  · right; simp

end AssocMap

/-- Mirror of one parsed line of the PowerShell spool dump (src/index.js
lines 426-432): the `Win32_PrintJob` fields forwarded to the Node side. -/
structure SpoolJob where
  id : Nat
  document : String
  printer : String
  pagesPrinted : Nat
  status : String
deriving DecidableEq, Repr

/-- The foreach loop over the current jobs in the PowerShell monitor script
(src/index.js lines 423-440): for each job in snapshot order, emit an `add`
event when its id is not yet a key of `previousState`, then store the job
under its id. -/
def processCurrentJobs (st : List (Nat × SpoolJob)) :
    List SpoolJob → List SpoolJob × List (Nat × SpoolJob)
  | [] => ([], st)
  | job :: rest =>
      let adds0 : List SpoolJob :=
        if (lookupA st job.id).isSome then [] else [job]
      let res := processCurrentJobs (setKeyA st job.id job) rest
      (adds0 ++ res.1, res.2)

/-- The events and final state of one poll tick. -/
structure TickResult where
  added : List SpoolJob
  removed : List SpoolJob
  newState : List (Nat × SpoolJob)
deriving DecidableEq, Repr

/-- One iteration of the monitor's polling loop (src/index.js lines
416-455): process the current snapshot emitting `add` events and updating
`previousState`, then for every stored key not among the current ids emit a
`remove` event carrying the stored (last-known) data with status forced to
`"Completed"` and drop the entry. -/
def tick (prev : List (Nat × SpoolJob)) (jobs : List SpoolJob) : TickResult :=
  let currentIds := jobs.map (·.id)
  let st := (processCurrentJobs prev jobs).2
  { added := (processCurrentJobs prev jobs).1
    removed := (st.filter (fun kv => !(currentIds.contains kv.1))).map
      (fun kv => { kv.2 with status := "Completed" })
    newState := st.filter (fun kv => currentIds.contains kv.1) }

theorem processCurrentJobs_adds (jobs : List SpoolJob) :
    ∀ st : List (Nat × SpoolJob), (jobs.map (·.id)).Nodup →
      (processCurrentJobs st jobs).1 =
        jobs.filter (fun j => (lookupA st j.id).isNone) := by
  induction jobs with
  | nil => intro st _; rfl
  | cons job rest ih =>
      intro st hnd
      simp only [List.map_cons, List.nodup_cons] at hnd
      have hne : ∀ j ∈ rest, j.id ≠ job.id := by
        intro j hj heq
        exact hnd.1 (heq ▸ List.mem_map_of_mem (·.id) hj)
      have hcong :
          rest.filter (fun j => (lookupA (setKeyA st job.id job) j.id).isNone) =
            rest.filter (fun j => (lookupA st j.id).isNone) := by
        apply List.filter_congr
        intro j hj
        rw [lookupA_setKeyA_ne st job.id j.id job (hne j hj)]
      show (if (lookupA st job.id).isSome then [] else [job]) ++
          (processCurrentJobs (setKeyA st job.id job) rest).1 = _
      rw [ih (setKeyA st job.id job) hnd.2, hcong, List.filter_cons]
      cases hjv : lookupA st job.id <;> simp [hjv]

theorem processCurrentJobs_lookup (jobs : List SpoolJob) :
    ∀ (st : List (Nat × SpoolJob)) (i : Nat), (jobs.map (·.id)).Nodup →
      lookupA (processCurrentJobs st jobs).2 i =
        match jobs.find? (fun j => j.id = i) with
        | some j => some j
        | none => lookupA st i := by
  induction jobs with
  | nil => intro st i _; rfl
  | cons job rest ih =>
      intro st i hnd
      simp only [List.map_cons, List.nodup_cons] at hnd
      show lookupA (processCurrentJobs (setKeyA st job.id job) rest).2 i = _
      rw [ih (setKeyA st job.id job) i hnd.2]
      by_cases hji : job.id = i
      · subst hji
        have hrnone : rest.find? (fun j => decide (j.id = job.id)) = none := by
          rw [List.find?_eq_none]
          intro j hj hdec
          simp only [decide_eq_true_eq] at hdec
          exact hnd.1 (hdec ▸ List.mem_map_of_mem (·.id) hj)
        rw [hrnone, List.find?_cons]
        simp [lookupA_setKeyA_self]
      · rw [List.find?_cons]
        have hdf : (decide (job.id = i)) = false := by simp [hji]
        rw [hdf]
        cases hr : rest.find? (fun j => decide (j.id = i)) with
        | some j => simp
        | none => simp [lookupA_setKeyA_ne st job.id i job (Ne.symm hji)]

theorem processCurrentJobs_filter (jobs : List SpoolJob) :
    ∀ (st : List (Nat × SpoolJob)) (p : Nat → Bool), (∀ j ∈ jobs, p j.id = false) →
      (processCurrentJobs st jobs).2.filter (fun kv => p kv.1) =
        st.filter (fun kv => p kv.1) := by
  induction jobs with
  | nil => intro st p _; rfl
  | cons job rest ih =>
      intro st p hp
      show (processCurrentJobs (setKeyA st job.id job) rest).2.filter _ = _
      rw [ih (setKeyA st job.id job) p (fun j hj => hp j (List.mem_cons_of_mem _ hj)),
        filter_setKeyA st job.id job p (hp job (List.mem_cons_self job rest))]

theorem keys_nodup_setKeyA (st : List (Nat × SpoolJob)) (k : Nat) (v : SpoolJob)
    (h : (st.map (·.1)).Nodup) : ((setKeyA st k v).map (·.1)).Nodup := by
  unfold setKeyA
  split
  · rw [keys_mapUpd]; exact h
  · rename_i hany
    simp only [List.any_eq_true, decide_eq_true_eq, not_exists, not_and] at hany
    simp only [List.map_append, List.map_cons, List.map_nil]
    rw [List.nodup_append]
    refine ⟨h, List.nodup_singleton _, ?_⟩
    intro a ha hb
    simp only [List.mem_singleton] at hb
    rcases List.mem_map.mp ha with ⟨kv, hkv, hfst⟩
    exact hany kv hkv (by rw [hfst, hb])

theorem processCurrentJobs_keys_nodup (jobs : List SpoolJob) :
    ∀ st : List (Nat × SpoolJob), (st.map (·.1)).Nodup →
      ((processCurrentJobs st jobs).2.map (·.1)).Nodup := by
  induction jobs with
  | nil => intro st h; exact h
  | cons job rest ih =>
      intro st h
      exact ih (setKeyA st job.id job) (keys_nodup_setKeyA st job.id job h)

/-- Model of JavaScript `hay.includes(sub)` on character lists: `sub` occurs
contiguously in `hay` (the empty string is included in everything). -/
def jsIncludesL (sub : List Char) : List Char → Bool
  | [] => sub.isEmpty
  | c :: t => sub.isPrefixOf (c :: t) || jsIncludesL sub t

/-- Model of JavaScript `hay.includes(sub)` on strings. -/
def jsIncludes (hay sub : String) : Bool :=
  jsIncludesL sub.toList hay.toList

/-- One value of the `activePrintJobs` correlation map (src/index.js lines
729-734): the caller's external job id and webhook URL, the matched spool
id once known, and the registration's storage filename.  The JavaScript
`null` values (`job_detail_id`/`webhook_url` absent, no spool id yet) are
modelled as the empty string and `none`. -/
structure JobData where
  jobDetailId : String
  webhookUrl : String
  windowsJobId : Option Nat
  filename : String
deriving DecidableEq, Repr

/-- A webhook POST body (src/index.js lines 498-502, 516-521, 747-751). -/
structure WebhookPayload where
  job_detail_id : String
  status : String
  message : String
  pages_printed : Option Nat
deriving DecidableEq, Repr

/-- Model of `sendWebhook` (src/index.js lines 537-547): a no-op for a
missing (falsy) URL, otherwise one POST of the payload to the URL.  The
returned list is the sequence of webhook invocations. -/
def sendWebhook (url : String) (payload : WebhookPayload) :
    List (String × WebhookPayload) :=
  if url = "" then [] else [(url, payload)]

/-- The scan of the `monitor.on("add")` handler (src/index.js lines
490-491): the first entry of the correlation map whose key occurs in the
event's document name, in map insertion order. -/
def findMatch (st : List (String × JobData)) (document : String) :
    Option (String × JobData) :=
  st.find? (fun kv => jsIncludes document kv.1)

/-- Model of the `monitor.on("add")` handler (src/index.js lines 487-506).
On a first match `(filename, data)`: record the spool id on the matched
entry, duplicate it under the stringified spool id with `filename` set to
the matched key, send one `running` webhook, and stop (the `break`).
Without a match, nothing happens.  Returns the new map and the webhook
invocations. -/
def onAdd (st : List (String × JobData)) (job : SpoolJob) :
    List (String × JobData) × List (String × WebhookPayload) :=
  match findMatch st job.document with
  | none => (st, [])
  | some (filename, data) =>
      let data' := { data with windowsJobId := some job.id }
      let st1 := st.map (fun kv => if kv.1 = filename then (filename, data') else kv)
      let st2 := setKeyA st1 (toString job.id) { data' with filename := filename }
      (st2, sendWebhook data.webhookUrl
        { job_detail_id := data.jobDetailId, status := "running",
          message := "Spooling on " ++ job.printer, pages_printed := none })

/-- Model of the `monitor.on("remove")` handler (src/index.js lines
508-535).  Look up the stringified spool id; when found, send one
`completed` webhook carrying the event's `pagesPrinted`, delete the
spool-id entry and (when truthy) the filename entry, and unlink the
uploaded temporary file when it exists (`fsExists` is the `existsSync`
oracle).  When not found, the event is only logged: no state change, no
webhook, no unlink.  Returns the new map, the webhook invocations and the
unlink targets. -/
def onRemove (fsExists : String → Bool) (st : List (String × JobData))
    (job : SpoolJob) :
    List (String × JobData) × List (String × WebhookPayload) × List String :=
  match lookupA st (toString job.id) with
  | none => (st, [], [])
  | some data =>
      let wh := sendWebhook data.webhookUrl
        { job_detail_id := data.jobDetailId, status := "completed",
          message := "Print job finished successfully",
          pages_printed := some job.pagesPrinted }
      let st1 := delKeyA st (toString job.id)
      let st2 := if data.filename = "" then st1 else delKeyA st1 data.filename
      let filePath := "uploads" ++ "/" ++ data.filename
      (st2, wh, if fsExists filePath then [filePath] else [])

/-- External outcome of handling one uploaded file in the `/print` loop:
`ensurePdf` threw, `print` threw after normalization produced
`processPath`, or everything succeeded with `processPath`. -/
inductive FileOutcome where
  | ensureFail (msg : String)
  | printFail (processPath : String) (msg : String)
  | success (processPath : String)
deriving DecidableEq, Repr

/-- One uploaded file together with its external outcome oracle. -/
structure FileReq where
  originalname : String
  outcome : FileOutcome
deriving DecidableEq, Repr

/-- One entry of variant 2's `results` array (src/index.js lines 739-743). -/
structure ResultEntry where
  file : String
  status : String
  internal_name : String
deriving DecidableEq, Repr

/-- Model of one iteration of variant 2's per-file `/print` loop
(src/index.js lines 718-754).  On successful normalization a registration
is stored under the basename of the processed path (when both
`job_detail_id` and `webhook_url` are truthy) before `print` is called; a
thrown error is caught and reported through one `failed` webhook (same
truthiness guard) with no result entry — and no removal of the stored
registration.  Returns the new map, the webhook invocations and the
result entries. -/
def processFile2 (jobDetailId webhookUrl : String)
    (st : List (String × JobData)) (f : FileReq) :
    List (String × JobData) × List (String × WebhookPayload) × List ResultEntry :=
  match f.outcome with
  | .ensureFail msg =>
      (st,
       (if webhookUrl ≠ "" ∧ jobDetailId ≠ "" then
          sendWebhook webhookUrl
            { job_detail_id := jobDetailId, status := "failed",
              message := msg, pages_printed := none }
        else []), [])
  | .printFail pp msg =>
      let actualFilename := jsBasename pp
      let st1 :=
        if jobDetailId ≠ "" ∧ webhookUrl ≠ "" then
          setKeyA st actualFilename
            ⟨jobDetailId, webhookUrl, none, actualFilename⟩
        else st
      (st1,
       (if webhookUrl ≠ "" ∧ jobDetailId ≠ "" then
          sendWebhook webhookUrl
            { job_detail_id := jobDetailId, status := "failed",
              message := msg, pages_printed := none }
        else []), [])
  | .success pp =>
      let actualFilename := jsBasename pp
      let st1 :=
        if jobDetailId ≠ "" ∧ webhookUrl ≠ "" then
          setKeyA st actualFilename
            ⟨jobDetailId, webhookUrl, none, actualFilename⟩
        else st
      (st1, [], [⟨f.originalname, "sent to spooler", actualFilename⟩])

/-- Variant 2's whole per-file loop, in file order, accumulating the
correlation map, the webhook invocations and the result entries. -/
def processFiles2 (jobDetailId webhookUrl : String)
    (st : List (String × JobData)) :
    List FileReq →
      List (String × JobData) × List (String × WebhookPayload) × List ResultEntry
  | [] => (st, [], [])
  | f :: rest =>
      let r := processFile2 jobDetailId webhookUrl st f
      let rs := processFiles2 jobDetailId webhookUrl r.1 rest
      (rs.1, r.2.1 ++ rs.2.1, r.2.2 ++ rs.2.2)

/-- The registration state produced by variant 2's `/print` handler for a
request carrying two files that both normalize and print successfully. -/
def registerTwo (J W : String) (st0 : List (String × JobData))
    (n1 n2 pp1 pp2 : String) : List (String × JobData) :=
  (processFiles2 J W st0
    [⟨n1, FileOutcome.success pp1⟩, ⟨n2, FileOutcome.success pp2⟩]).1

/-- One entry of variant 1's `results` array (src/index.js lines 290-304;
the details field of the split branch is not needed by the claims). -/
structure Result1 where
  file : String
  status : String
deriving DecidableEq, Repr

/-- One entry of variant 1's `errors` array (src/index.js line 308). -/
structure ErrEntry where
  file : String
  error : String
deriving DecidableEq, Repr

/-- Whether a file's processing outcome is a success. -/
def isSuccess : FileOutcome → Bool
  | .success _ => true
  | _ => false

/-- The per-file try/catch of variant 1's `/print` handler (src/index.js
lines 245-321): each file contributes exactly one entry, to `results` on
success and to `errors` on a thrown normalization or submission error;
one file's failure does not affect the others. -/
def processBatch1 : List FileReq → List Result1 × List ErrEntry
  | [] => ([], [])
  | f :: rest =>
      let r := processBatch1 rest
      match f.outcome with
      | .success _ => (⟨f.originalname, "converted & sent to printer"⟩ :: r.1, r.2)
      | .ensureFail m => (r.1, ⟨f.originalname, m⟩ :: r.2)
      | .printFail _ m => (r.1, ⟨f.originalname, m⟩ :: r.2)

/-- The aggregate JSON response of variant 1's `/print` route. -/
structure HttpResponse1 where
  status : Nat
  success : Bool
  results : List Result1
  errors : List ErrEntry
deriving DecidableEq, Repr

/-- Variant 1's `/print` route end to end (src/index.js lines 47-61 and
222-339).  Multer's `fileFilter` rejects any file with a disallowed
extension, which fails the whole request through the error middleware with
the filter's 400 status before the handler runs.  Otherwise: no files is a
400; then the batch is processed and the aggregate status is 500 when
everything failed, 207 (partial success) when something failed, and 200
when nothing did. -/
def printEndpoint1 (files : List FileReq) : HttpResponse1 :=
  if files.all (fun f => fileFilterAccepts f.originalname) then
    if files.isEmpty then ⟨400, false, [], []⟩
    else
      let re := processBatch1 files
      if 0 < re.2.length ∧ re.1.length = 0 then ⟨500, false, re.1, re.2⟩
      else if 0 < re.2.length then ⟨207, true, re.1, re.2⟩
      else ⟨200, true, re.1, re.2⟩
  else ⟨400, false, [], []⟩

/-- The result entry variant 2's per-file loop pushes for a file, when it
pushes one: only a fully successful file contributes an entry (src/index.js
lines 739-743); a failed file contributes nothing at all to `results`. -/
def successEntry (f : FileReq) : List ResultEntry :=
  match f.outcome with
  | .success pp => [⟨f.originalname, "sent to spooler", jsBasename pp⟩]
  | _ => []

/-- The aggregate JSON response of variant 2's `/print` route: it carries
only `success` and the `results` array — there is no errors field. -/
structure HttpResponse2 where
  status : Nat
  success : Bool
  results : List ResultEntry
deriving DecidableEq, Repr

/-- Variant 2's `/print` route handler (src/index.js lines 687-760): an
empty batch is a 400; otherwise the per-file loop runs (the upload filter,
as in variant 1, rejects any disallowed extension before the handler ever
runs) and the handler always answers 200 success carrying only the success
results — the catch block pushes no error entry, so failed files are
simply absent from the response. -/
def printEndpoint2 (jobDetailId webhookUrl : String)
    (st : List (String × JobData)) (files : List FileReq) :
    HttpResponse2 × List (String × JobData) × List (String × WebhookPayload) :=
  if files.isEmpty then (⟨400, false, []⟩, st, [])
  else
    let r := processFiles2 jobDetailId webhookUrl st files
    (⟨200, true, r.2.2⟩, r.1, r.2.1)

section MoreAssoc

variable {κ ν : Type} [DecidableEq κ]

theorem lookupA_filter (st : List (κ × ν)) (q : κ → Bool) (i : κ) :
    lookupA (st.filter (fun kv => q kv.1)) i =
      if q i then lookupA st i else none := by
  induction st with
  | nil => simp [lookupA]
  | cons kv rest ih =>
      by_cases hq : q kv.1
      · by_cases hk : kv.1 = i
        · subst hk; simp [List.filter_cons, hq, lookupA]
        · simp [List.filter_cons, hq, lookupA, hk, ih]
      · by_cases hk : kv.1 = i
        · subst hk
          simp only [List.filter_cons, Bool.eq_false_iff.mpr hq, lookupA]
          simpa [hq] using ih
        · simp only [List.filter_cons]
          rw [if_neg (by simpa using hq)]
          rw [ih]
          simp [lookupA, hk]

theorem lookupA_of_mem_nodup (st : List (κ × ν)) (k : κ) (v : ν)
    (hmem : (k, v) ∈ st) (hnd : (st.map (·.1)).Nodup) : lookupA st k = some v := by
  induction st with
  | nil => simp at hmem
  | cons kv rest ih =>
      simp only [List.map_cons, List.nodup_cons] at hnd
      rcases List.mem_cons.mp hmem with h | h
      · rw [← h]; simp [lookupA]
      · have hk : kv.1 ≠ k := by
          intro he
          exact hnd.1 (he ▸ (List.mem_map_of_mem (·.1) h : (k, v).1 ∈ _))
        simp [lookupA, hk, ih h hnd.2]

end MoreAssoc

theorem parsePart_le (part : List Char) (m q : Int) (hq : q ∈ parsePart part m) :
    q ≤ m := by
  unfold parsePart at hq
  split at hq
  · split at hq
    · exact (Finset.mem_filter.mp hq).2
    · simp at hq
  · split at hq
    · rename_i v hv
      split at hq
      · rename_i hle
        rw [Finset.mem_singleton] at hq
        exact hq ▸ hle
      · simp at hq
    · simp at hq

theorem parsePageRange_le (s : String) (m q : Int)
    (hq : q ∈ parsePageRange s m) : q ≤ m := by
  unfold parsePageRange at hq
  split at hq
  · simp at hq
  · revert hq
    generalize splitOnCharL ',' s.toList = parts
    suffices h : ∀ (ps : List (List Char)) (acc : Finset Int),
        (∀ r ∈ acc, r ≤ m) →
        q ∈ ps.foldl (fun pages part => pages ∪ parsePart part m) acc → q ≤ m by
      intro hq
      exact h parts ∅ (by simp) hq
    intro ps
    induction ps with
    | nil => intro acc hacc hq; exact hacc q hq
    | cons pt rest ih =>
        intro acc hacc hq
        refine ih (acc ∪ parsePart pt m) ?_ hq
        intro r hr
        rcases Finset.mem_union.mp hr with h | h
        · exact hacc r h
        · exact parsePart_le pt m r h

theorem doc_mem_ne_pdf (x : String)
    (h : x ∈ DOC_EXTENSIONS) : x ≠ ".pdf" := by
  intro hx
  subst hx
  exact absurd h (by decide)

theorem processBatch1_results_length (files : List FileReq) :
    (processBatch1 files).1.length =
      (files.filter (fun f => isSuccess f.outcome)).length := by
  induction files with
  | nil => rfl
  | cons f rest ih =>
      cases ho : f.outcome <;>
        simp [processBatch1, List.filter_cons, ho, isSuccess, ih]

theorem processBatch1_errors_length (files : List FileReq) :
    (processBatch1 files).2.length =
      (files.filter (fun f => !isSuccess f.outcome)).length := by
  induction files with
  | nil => rfl
  | cons f rest ih =>
      cases ho : f.outcome <;>
        simp [processBatch1, List.filter_cons, ho, isSuccess, ih]

theorem processFiles2_results (J W : String) :
    ∀ (files : List FileReq) (st : List (String × JobData)),
      (processFiles2 J W st files).2.2 = (files.map successEntry).flatten := by
  intro files
  induction files with
  | nil => intro st; rfl
  | cons f rest ih =>
      intro st
      cases ho : f.outcome <;>
        simp [processFiles2, processFile2, successEntry, ho, ih]

/-- C2: on each poll tick, the monitor emits exactly one `added` event per
job id present in the snapshot but absent from the previous state (in
snapshot order, with the current job data), exactly one `removed` event per
stored id absent from the snapshot (carrying the stored last-known data
with status forced to `"Completed"`), and the new state is exactly the
snapshot (lookup by id finds the snapshot's job); id lists stay
duplicate-free.  The hypotheses are the OS queue invariant (distinct ids
per snapshot) and the state invariant the tick itself preserves. -/
theorem c2_tick_diff (prev : List (Nat × SpoolJob)) (jobs : List SpoolJob)
    (hjobs : (jobs.map (·.id)).Nodup) (hprev : (prev.map (·.1)).Nodup) :
    (tick prev jobs).added = jobs.filter (fun j => (lookupA prev j.id).isNone)
    ∧ (tick prev jobs).removed =
        (prev.filter (fun kv => !((jobs.map (·.id)).contains kv.1))).map
          (fun kv => { kv.2 with status := "Completed" })
    ∧ (∀ i, lookupA (tick prev jobs).newState i = jobs.find? (fun j => j.id = i))
    ∧ ((tick prev jobs).added.map (·.id)).Nodup
    ∧ ((tick prev jobs).newState.map (·.1)).Nodup := by
  have hadds := processCurrentJobs_adds jobs prev hjobs
  refine ⟨hadds, ?_, ?_, ?_, ?_⟩
  · show ((processCurrentJobs prev jobs).2.filter
        (fun kv => !((jobs.map (·.id)).contains kv.1))).map _ = _
    rw [processCurrentJobs_filter jobs prev
      (fun i => !((jobs.map (·.id)).contains i)) ?_]
    intro j hj
    simp only [Bool.not_eq_false']
    exact List.elem_eq_true_of_mem (List.mem_map_of_mem (·.id) hj)
  · intro i
    show lookupA ((processCurrentJobs prev jobs).2.filter
        (fun kv => (jobs.map (·.id)).contains kv.1)) i = _
    rw [lookupA_filter, processCurrentJobs_lookup jobs prev i hjobs]
    cases hf : jobs.find? (fun j => decide (j.id = i)) with
    | some j =>
        have hji : j.id = i := by simpa using List.find?_some hf
        have hc : (jobs.map (·.id)).contains i = true :=
          List.elem_eq_true_of_mem
            (hji ▸ List.mem_map_of_mem (·.id) (List.mem_of_find?_eq_some hf))
        rw [if_pos hc]
    | none =>
        have hni : ∀ j ∈ jobs, ¬ j.id = i := by
          intro j hj
          simpa using List.find?_eq_none.mp hf j hj
        have hc : (jobs.map (·.id)).contains i = false := by
          rw [Bool.eq_false_iff]
          intro hcon
          rcases List.mem_map.mp (List.mem_of_elem_eq_true hcon) with ⟨j, hj, hji⟩
          exact hni j hj hji
        rw [if_neg (fun hcon => by rw [hc] at hcon; exact Bool.false_ne_true hcon)]
  · rw [show (tick prev jobs).added = (processCurrentJobs prev jobs).1 from rfl,
      hadds]
    exact hjobs.sublist ((List.filter_sublist jobs).map (·.id))
  · show (((processCurrentJobs prev jobs).2.filter _).map (·.1)).Nodup
    exact (processCurrentJobs_keys_nodup jobs prev hprev).sublist
      (List.Sublist.map (·.1)
        (List.filter_sublist (processCurrentJobs prev jobs).2))

/-- Concrete previous monitor state used by the C2 witness. -/
def c2prevW : List (Nat × SpoolJob) :=
  [(1, ⟨1, "a", "p", 2, "Printing"⟩), (2, ⟨2, "b", "p", 0, "Spooling"⟩)]

/-- Concrete snapshot used by the C2 witness: keeps id 2, drops id 1, adds
id 3. -/
def c2jobsW : List SpoolJob :=
  [⟨2, "b", "p", 1, "Printing"⟩, ⟨3, "c", "p", 0, "Spooling"⟩]

/-- C2 witness: instantiation of `c2_tick_diff` on the concrete state and
snapshot above. -/
theorem c2_tick_diff_witness :
    (c2jobsW.map (·.id)).Nodup ∧ (c2prevW.map (·.1)).Nodup ∧
    (tick c2prevW c2jobsW).added =
      c2jobsW.filter (fun j => (lookupA c2prevW j.id).isNone) :=
  ⟨by decide, by decide, (c2_tick_diff c2prevW c2jobsW (by decide) (by decide)).1⟩

/-- C1: lifecycle of a matched registration.  For a registration keyed `F`
(with its own filename field `F`, a non-empty webhook URL, and `F` the
first match for the `added` event's document name in a duplicate-free map):
the `add` handler sends exactly one `running` webhook, records the spool id
on the `F` entry and duplicates it under the stringified spool id; a
subsequent `remove` event with the matched spool id sends exactly one
`completed` webhook whose pages-printed is the event's `pagesPrinted`,
unlinks the registration's uploaded temporary file (which exists), and
removes both the filename-keyed and the spool-id-keyed entries. -/
theorem c1_lifecycle (st : List (String × JobData)) (job1 job2 : SpoolJob)
    (F : String) (d : JobData) (fsExists : String → Bool)
    (hnd : (st.map (·.1)).Nodup)
    (hfind : findMatch st job1.document = some (F, d))
    (hfn : d.filename = F)
    (hF : F ≠ "")
    (hurl : d.webhookUrl ≠ "")
    (hkey : toString job1.id ≠ F)
    (hid : job2.id = job1.id)
    (hex : fsExists ("uploads/" ++ F) = true) :
    (onAdd st job1).2 =
      [(d.webhookUrl, ⟨d.jobDetailId, "running",
        "Spooling on " ++ job1.printer, none⟩)]
    ∧ lookupA (onAdd st job1).1 F = some { d with windowsJobId := some job1.id }
    ∧ lookupA (onAdd st job1).1 (toString job1.id) =
        some { d with windowsJobId := some job1.id }
    ∧ (onRemove fsExists (onAdd st job1).1 job2).2.1 =
        [(d.webhookUrl, ⟨d.jobDetailId, "completed",
          "Print job finished successfully", some job2.pagesPrinted⟩)]
    ∧ (onRemove fsExists (onAdd st job1).1 job2).2.2 = ["uploads/" ++ F]
    ∧ lookupA (onRemove fsExists (onAdd st job1).1 job2).1 F = none
    ∧ lookupA (onRemove fsExists (onAdd st job1).1 job2).1 (toString job1.id) =
        none := by
  have hstF : lookupA st F = some d :=
    lookupA_of_mem_nodup st F d (List.mem_of_find?_eq_some hfind) hnd
  have hcopy : ({ { d with windowsJobId := some job1.id } with filename := F } :
      JobData) = { d with windowsJobId := some job1.id } := by
    cases d
    simp only [JobData.filename] at hfn
    subst hfn
    rfl
  have hadd : onAdd st job1 =
      (setKeyA
        (st.map (fun kv => if kv.1 = F then
          (F, { d with windowsJobId := some job1.id }) else kv))
        (toString job1.id) { d with windowsJobId := some job1.id },
       [(d.webhookUrl, ⟨d.jobDetailId, "running",
         "Spooling on " ++ job1.printer, none⟩)]) := by
    simp only [onAdd, hfind]
    rw [hcopy]
    simp [sendWebhook, hurl]
  have hlkF : lookupA (onAdd st job1).1 F =
      some { d with windowsJobId := some job1.id } := by
    rw [hadd]
    rw [lookupA_setKeyA_ne _ _ _ _ (Ne.symm hkey), lookupA_mapUpd_self, hstF]
    rfl
  have hlkS : lookupA (onAdd st job1).1 (toString job1.id) =
      some { d with windowsJobId := some job1.id } := by
    rw [hadd, lookupA_setKeyA_self]
  have hlk2 : lookupA (onAdd st job1).1 (toString job2.id) =
      some { d with windowsJobId := some job1.id } := by
    rw [hid]
    exact hlkS
  have hrem : onRemove fsExists (onAdd st job1).1 job2 =
      (delKeyA (delKeyA (onAdd st job1).1 (toString job2.id)) F,
       [(d.webhookUrl, ⟨d.jobDetailId, "completed",
         "Print job finished successfully", some job2.pagesPrinted⟩)],
       ["uploads/" ++ F]) := by
    simp only [onRemove, hlk2]
    simp [sendWebhook, hurl, hfn, hF, hex]
  refine ⟨?_, hlkF, hlkS, ?_, ?_, ?_, ?_⟩
  · rw [hadd]
  · rw [hrem]
  · rw [hrem]
  · rw [hrem]
    exact lookupA_delKeyA_self _ F
  · rw [hrem]
    rw [lookupA_delKeyA_ne _ _ _ (hid ▸ hkey)]
    rw [hid]
    exact lookupA_delKeyA_self _ _

/-- Concrete correlation map used by the C1 witness. -/
def c1stW : List (String × JobData) := [("d1", ⟨"J1", "http://h", none, "d1"⟩)]

/-- Concrete `added` event used by the C1 witness. -/
def c1job1W : SpoolJob := ⟨7, "word - d1", "HP", 0, "Spooling"⟩

/-- Concrete `removed` event used by the C1 witness. -/
def c1job2W : SpoolJob := ⟨7, "word - d1", "HP", 3, "Completed"⟩

/-- C1 witness: instantiation of `c1_lifecycle` on the concrete map and
events above. -/
theorem c1_lifecycle_witness :
    ((c1stW.map (·.1)).Nodup
      ∧ findMatch c1stW c1job1W.document = some ("d1", ⟨"J1", "http://h", none, "d1"⟩)
      ∧ ("d1" : String) ≠ ""
      ∧ ("http://h" : String) ≠ ""
      ∧ toString c1job1W.id ≠ "d1"
      ∧ c1job2W.id = c1job1W.id
      ∧ (fun (_ : String) => true) ("uploads/" ++ "d1") = true)
    ∧ (onAdd c1stW c1job1W).2 =
        [("http://h", ⟨"J1", "running", "Spooling on " ++ c1job1W.printer, none⟩)] :=
  ⟨⟨by decide, by decide, by decide, by decide, by decide, by decide, rfl⟩,
    (c1_lifecycle c1stW c1job1W c1job2W "d1" ⟨"J1", "http://h", none, "d1"⟩
      (fun _ => true) (by decide) (by decide) (by decide) (by decide) (by decide)
      (by decide) (by decide) rfl).1⟩

/-- C4 counterexample: the claim says the parsed set is a subset of
`[1, maxPages]`, but `parsePageRange` never checks the lower bound, so the
token `"0"` puts `0` into the set. -/
theorem c4_counterexample : ¬ parsePageRange "0" 6 ⊆ Finset.Icc (1 : Int) 6 := by
  decide

/-- C4 (amended): every element of the set returned by `parsePageRange` is
at most `maxPages` and the set has no duplicates (it is a set), but the
lower bound 1 is not enforced (out-of-range means only above `maxPages`;
unparseable tokens are dropped silently); the example `"1-3,5,10"` with
`maxPages = 6` parses to `{1, 2, 3, 5}`. -/
theorem c4_parsePageRange_bounds (s : String) (m p : Int)
    (hp : p ∈ parsePageRange s m) :
    p ≤ m ∧ parsePageRange "1-3,5,10" 6 = {1, 2, 3, 5} :=
  ⟨parsePageRange_le s m p hp, by decide⟩

/-- C4 witness: instantiation of `c4_parsePageRange_bounds` at page 2 of the
spec example. -/
theorem c4_parsePageRange_bounds_witness :
    (2 : Int) ∈ parsePageRange "1-3,5,10" 6 ∧
      ((2 : Int) ≤ 6 ∧ parsePageRange "1-3,5,10" 6 = {1, 2, 3, 5}) :=
  ⟨by decide, c4_parsePageRange_bounds "1-3,5,10" 6 2 (by decide)⟩

/-- C3 counterexample: with range spec `"0"` and one page, the mono set is
`{0}` and the color set `{1}`, and their union is not `[1..1]`, so the
mono/color sets do not partition the page range for every range spec. -/
theorem c3_counterexample :
    monoSet "0" 1 ∪ colorSet "0" 1 ≠ Finset.Icc (1 : Int) 1 := by
  decide

/-- C3 (amended): whenever the parsed mono set lies inside `[1..N]` (which
holds for every range spec whose tokens are all at least 1, but not for
tokens like `"0"`), the mono and color sets partition `[1..N]` exactly, and
one submission is issued per non-empty part — two when both parts are
non-empty, one otherwise — each carrying the request's shared base options
plus its own sorted page filter and monochrome flag. -/
theorem c3_split_partition (base : BaseOptions) (s : String) (N : Int)
    (hsub : monoSet s N ⊆ Finset.Icc 1 N) :
    Disjoint (monoSet s N) (colorSet s N)
    ∧ monoSet s N ∪ colorSet s N = Finset.Icc 1 N
    ∧ (splitJobs base s N).length =
        (if (monoSet s N).Nonempty then 1 else 0) +
        (if (colorSet s N).Nonempty then 1 else 0)
    ∧ ∀ j ∈ splitJobs base s N,
        j.base = base
        ∧ (j.monochrome = true → j.pages = (monoSet s N).sort (· ≤ ·))
        ∧ (j.monochrome = false → j.pages = (colorSet s N).sort (· ≤ ·)) := by
  refine ⟨?_, ?_, ?_, ?_⟩
  · rw [Finset.disjoint_left]
    intro a ha hc
    exact (Finset.mem_filter.mp hc).2 ha
  · ext x
    simp only [Finset.mem_union, colorSet, monoSet, Finset.mem_filter]
    constructor
    · rintro (hx | hx)
      · exact hsub hx
      · exact hx.1
    · intro hx
      by_cases hm : x ∈ parsePageRange s N
      · exact Or.inl hm
      · exact Or.inr ⟨hx, hm⟩
  · have e1 : (monoSet s N).Nonempty ↔ 0 < (monoSet s N).card :=
      Finset.card_pos.symm
    have e2 : (colorSet s N).Nonempty ↔ 0 < (colorSet s N).card :=
      Finset.card_pos.symm
    by_cases h1 : 0 < (monoSet s N).card <;>
      by_cases h2 : 0 < (colorSet s N).card <;>
        simp [splitJobs, h1, h2, e1, e2]
  · intro j hj
    simp only [splitJobs] at hj
    rcases List.mem_append.mp hj with h | h
    · split at h
      · rw [List.mem_singleton] at h
        subst h
        exact ⟨rfl, fun _ => rfl, fun hh => by simp at hh⟩
      · simp at h
    · split at h
      · rw [List.mem_singleton] at h
        subst h
        exact ⟨rfl, fun hh => by simp at hh, fun _ => rfl⟩
      · simp at h

/-- Concrete shared base options used by the C3 witness. -/
def c3baseW : BaseOptions :=
  ⟨some "HP", some "A4", none, some 2, some "portrait", none, none⟩

/-- C3 witness: instantiation of `c3_split_partition` at spec `"1"` over two
pages with concrete shared base options. -/
theorem c3_split_partition_witness :
    monoSet "1" 2 ⊆ Finset.Icc (1 : Int) 2 ∧
      (Disjoint (monoSet "1" 2) (colorSet "1" 2)
      ∧ monoSet "1" 2 ∪ colorSet "1" 2 = Finset.Icc 1 2
      ∧ (splitJobs c3baseW "1" 2).length =
          (if (monoSet "1" 2).Nonempty then 1 else 0) +
          (if (colorSet "1" 2).Nonempty then 1 else 0)
      ∧ ∀ j ∈ splitJobs c3baseW "1" 2,
          j.base = c3baseW
          ∧ (j.monochrome = true → j.pages = (monoSet "1" 2).sort (· ≤ ·))
          ∧ (j.monochrome = false → j.pages = (colorSet "1" 2).sort (· ≤ ·))) :=
  ⟨by decide, c3_split_partition c3baseW "1" 2 (by decide)⟩

/-- C9: a `removed` spool event whose stringified id has no entry in the
correlation map changes nothing: same map, no webhook, no unlink. -/
theorem c9_orphan_no_change (fsExists : String → Bool)
    (st : List (String × JobData)) (job : SpoolJob)
    (h : lookupA st (toString job.id) = none) :
    onRemove fsExists st job = (st, [], []) := by
  simp only [onRemove, h]

/-- C9 witness: instantiation of `c9_orphan_no_change` on the empty map. -/
theorem c9_orphan_no_change_witness :
    lookupA ([] : List (String × JobData)) (toString (5 : Nat)) = none ∧
      onRemove (fun _ => true) [] ⟨5, "doc", "pr", 0, "Completed"⟩ = ([], [], []) :=
  ⟨rfl, c9_orphan_no_change (fun _ => true) [] ⟨5, "doc", "pr", 0, "Completed"⟩ rfl⟩

/-- C5 counterexample: when `print` throws after a registration was stored,
the catch block sends the `failed` webhook but never deletes the
registration, so the entry is still in the correlation map afterwards —
refuting the claim that the registration is removed. -/
theorem c5_counterexample :
    (processFile2 "J" "http://w" []
        ⟨"a.pdf", FileOutcome.printFail "up/x.pdf" "boom"⟩).2.1
      = [("http://w", ⟨"J", "failed", "boom", none⟩)]
    ∧ ¬ lookupA (processFile2 "J" "http://w" []
        ⟨"a.pdf", FileOutcome.printFail "up/x.pdf" "boom"⟩).1 "x.pdf" = none := by
  decide

/-- C5 (amended): when normalization or submission of a file fails with a
job id and webhook URL supplied, exactly one `failed` webhook is sent and
no result entry is produced, bypassing spool correlation; but when the
failure happens in `print` (after the registration was stored), the
registration is NOT removed — it remains in the correlation map keyed by
the processed file's basename. -/
theorem c5_failed_webhook (J W np pp msg : String)
    (st : List (String × JobData)) (hJ : J ≠ "") (hW : W ≠ "") :
    processFile2 J W st ⟨np, FileOutcome.ensureFail msg⟩ =
      (st, [(W, ⟨J, "failed", msg, none⟩)], [])
    ∧ (processFile2 J W st ⟨np, FileOutcome.printFail pp msg⟩).2.1 =
        [(W, ⟨J, "failed", msg, none⟩)]
    ∧ (processFile2 J W st ⟨np, FileOutcome.printFail pp msg⟩).2.2 = []
    ∧ lookupA (processFile2 J W st ⟨np, FileOutcome.printFail pp msg⟩).1
        (jsBasename pp) = some ⟨J, W, none, jsBasename pp⟩ := by
  refine ⟨?_, ?_, ?_, ?_⟩ <;>
    simp [processFile2, sendWebhook, hJ, hW, lookupA_setKeyA_self]

/-- C5 witness: instantiation of `c5_failed_webhook` on concrete data. -/
theorem c5_failed_webhook_witness :
    ("J" ≠ "" ∧ "http://w" ≠ "") ∧
      (processFile2 "J" "http://w" [] ⟨"b.docx", FileOutcome.ensureFail "m"⟩ =
        ([], [("http://w", ⟨"J", "failed", "m", none⟩)], [])
      ∧ (processFile2 "J" "http://w" []
          ⟨"b.docx", FileOutcome.printFail "up/y.pdf" "m"⟩).2.1 =
          [("http://w", ⟨"J", "failed", "m", none⟩)]
      ∧ (processFile2 "J" "http://w" []
          ⟨"b.docx", FileOutcome.printFail "up/y.pdf" "m"⟩).2.2 = []
      ∧ lookupA (processFile2 "J" "http://w" []
          ⟨"b.docx", FileOutcome.printFail "up/y.pdf" "m"⟩).1
          (jsBasename "up/y.pdf") = some ⟨"J", "http://w", none, jsBasename "up/y.pdf"⟩) :=
  ⟨⟨by decide, by decide⟩,
    c5_failed_webhook "J" "http://w" "b.docx" "up/y.pdf" "m" [] (by decide) (by decide)⟩


/-- C10: one `/print` request (variant 2) with external id `J`, webhook URL
`W` and two successfully processed files creates one registration per file,
keyed by each file's processed basename, both sharing `J` and `W`; matched
`add` events for each file then produce one `running` webhook each, and
`remove` events for the two spool ids produce one `completed` webhook each
— so the single external id `J` receives two `running` and two `completed`
events, one per file. -/
theorem c10_shared_id_registrations
    (J W : String) (st0 : List (String × JobData))
    (n1 n2 pp1 pp2 : String) (job1 job2 : SpoolJob) (fx : String → Bool)
    (hJ : J ≠ "") (hW : W ≠ "")
    (hb : jsBasename pp1 ≠ jsBasename pp2)
    (hb1 : jsBasename pp1 ≠ "")
    (hm1 : findMatch (registerTwo J W st0 n1 n2 pp1 pp2) job1.document =
      some (jsBasename pp1, ⟨J, W, none, jsBasename pp1⟩))
    (hm2 : findMatch (onAdd (registerTwo J W st0 n1 n2 pp1 pp2) job1).1
        job2.document = some (jsBasename pp2, ⟨J, W, none, jsBasename pp2⟩))
    (hsk : toString job1.id ≠ toString job2.id)
    (hk12 : toString job1.id ≠ jsBasename pp2)
    (hk21 : toString job2.id ≠ jsBasename pp1) :
    lookupA (registerTwo J W st0 n1 n2 pp1 pp2) (jsBasename pp1) =
      some ⟨J, W, none, jsBasename pp1⟩
    ∧ lookupA (registerTwo J W st0 n1 n2 pp1 pp2) (jsBasename pp2) =
      some ⟨J, W, none, jsBasename pp2⟩
    ∧ (onAdd (registerTwo J W st0 n1 n2 pp1 pp2) job1).2 =
        [(W, ⟨J, "running", "Spooling on " ++ job1.printer, none⟩)]
    ∧ (onAdd (onAdd (registerTwo J W st0 n1 n2 pp1 pp2) job1).1 job2).2 =
        [(W, ⟨J, "running", "Spooling on " ++ job2.printer, none⟩)]
    ∧ (onRemove fx (onAdd (onAdd (registerTwo J W st0 n1 n2 pp1 pp2) job1).1
        job2).1 job1).2.1 =
        [(W, ⟨J, "completed", "Print job finished successfully",
          some job1.pagesPrinted⟩)]
    ∧ (onRemove fx (onRemove fx (onAdd (onAdd (registerTwo J W st0 n1 n2 pp1 pp2)
        job1).1 job2).1 job1).1 job2).2.1 =
        [(W, ⟨J, "completed", "Print job finished successfully",
          some job2.pagesPrinted⟩)] := by
  have hreg : registerTwo J W st0 n1 n2 pp1 pp2 =
      setKeyA (setKeyA st0 (jsBasename pp1) ⟨J, W, none, jsBasename pp1⟩)
        (jsBasename pp2) ⟨J, W, none, jsBasename pp2⟩ := by
    simp [registerTwo, processFiles2, processFile2, hJ, hW]
  have hadd1 : onAdd (registerTwo J W st0 n1 n2 pp1 pp2) job1 =
      (setKeyA ((registerTwo J W st0 n1 n2 pp1 pp2).map
          (fun kv => if kv.1 = jsBasename pp1 then
            (jsBasename pp1, ⟨J, W, some job1.id, jsBasename pp1⟩) else kv))
        (toString job1.id) ⟨J, W, some job1.id, jsBasename pp1⟩,
       [(W, ⟨J, "running", "Spooling on " ++ job1.printer, none⟩)]) := by
    simp only [onAdd, hm1]
    simp [sendWebhook, hW]
  have hadd2 : onAdd (onAdd (registerTwo J W st0 n1 n2 pp1 pp2) job1).1 job2 =
      (setKeyA ((onAdd (registerTwo J W st0 n1 n2 pp1 pp2) job1).1.map
          (fun kv => if kv.1 = jsBasename pp2 then
            (jsBasename pp2, ⟨J, W, some job2.id, jsBasename pp2⟩) else kv))
        (toString job2.id) ⟨J, W, some job2.id, jsBasename pp2⟩,
       [(W, ⟨J, "running", "Spooling on " ++ job2.printer, none⟩)]) := by
    generalize hA1 : (onAdd (registerTwo J W st0 n1 n2 pp1 pp2) job1).1 = A1
      at hm2 ⊢
    simp only [onAdd, hm2]
    simp [sendWebhook, hW]
  have hlk1 : lookupA (onAdd (onAdd (registerTwo J W st0 n1 n2 pp1 pp2) job1).1
      job2).1 (toString job1.id) = some ⟨J, W, some job1.id, jsBasename pp1⟩ := by
    simp only [hadd2]
    rw [lookupA_setKeyA_ne _ _ _ _ hsk, lookupA_mapUpd_ne _ _ _ _ hk12]
    simp only [hadd1]
    rw [lookupA_setKeyA_self]
  have hrem1 : onRemove fx (onAdd (onAdd (registerTwo J W st0 n1 n2 pp1 pp2)
      job1).1 job2).1 job1 =
      (delKeyA (delKeyA
        (onAdd (onAdd (registerTwo J W st0 n1 n2 pp1 pp2) job1).1 job2).1
        (toString job1.id)) (jsBasename pp1),
       [(W, ⟨J, "completed", "Print job finished successfully",
         some job1.pagesPrinted⟩)],
       if fx ("uploads/" ++ jsBasename pp1) then ["uploads/" ++ jsBasename pp1]
       else []) := by
    simp only [onRemove, hlk1]
    simp [sendWebhook, hW, hb1]
  have hlk2r : lookupA (onRemove fx (onAdd (onAdd
      (registerTwo J W st0 n1 n2 pp1 pp2) job1).1 job2).1 job1).1
      (toString job2.id) = some ⟨J, W, some job2.id, jsBasename pp2⟩ := by
    simp only [hrem1]
    rw [lookupA_delKeyA_ne _ _ _ hk21, lookupA_delKeyA_ne _ _ _ (Ne.symm hsk)]
    simp only [hadd2]
    rw [lookupA_setKeyA_self]
  refine ⟨?_, ?_, ?_, ?_, ?_, ?_⟩
  · rw [hreg, lookupA_setKeyA_ne _ _ _ _ hb, lookupA_setKeyA_self]
  · rw [hreg, lookupA_setKeyA_self]
  · rw [hadd1]
  · rw [hadd2]
  · rw [hrem1]
  · generalize hR1 : (onRemove fx (onAdd (onAdd
        (registerTwo J W st0 n1 n2 pp1 pp2) job1).1 job2).1 job1).1 = R1
      at hlk2r ⊢
    simp only [onRemove, hlk2r]
    simp [sendWebhook, hW]

/-- C10 witness: instantiation of `c10_shared_id_registrations` on two
files with basenames `a` and `b` and spool ids 1 and 2. -/
theorem c10_shared_id_registrations_witness :
    (("J" : String) ≠ "" ∧ ("http://h" : String) ≠ ""
      ∧ jsBasename "up/a" ≠ jsBasename "up/b" ∧ jsBasename "up/a" ≠ ""
      ∧ findMatch (registerTwo "J" "http://h" [] "a.pdf" "b.pdf" "up/a" "up/b")
          (⟨1, "x a", "P", 2, "s"⟩ : SpoolJob).document =
          some (jsBasename "up/a", ⟨"J", "http://h", none, jsBasename "up/a"⟩)
      ∧ findMatch (onAdd (registerTwo "J" "http://h" [] "a.pdf" "b.pdf" "up/a"
          "up/b") ⟨1, "x a", "P", 2, "s"⟩).1
          (⟨2, "x b", "P", 5, "s"⟩ : SpoolJob).document =
          some (jsBasename "up/b", ⟨"J", "http://h", none, jsBasename "up/b"⟩))
    ∧ lookupA (registerTwo "J" "http://h" [] "a.pdf" "b.pdf" "up/a" "up/b")
        (jsBasename "up/a") = some ⟨"J", "http://h", none, jsBasename "up/a"⟩ :=
  ⟨⟨by decide, by decide, by decide, by decide, by decide, by decide⟩,
    (c10_shared_id_registrations "J" "http://h" [] "a.pdf" "b.pdf" "up/a" "up/b"
      ⟨1, "x a", "P", 2, "s"⟩ ⟨2, "x b", "P", 5, "s"⟩ (fun _ => true)
      (by decide) (by decide) (by decide) (by decide) (by decide) (by decide)
      (by decide) (by decide) (by decide)).1⟩

/-- C7 counterexample: variant 2's `ensurePdf` does not fail on an unknown
extension — it returns the original upload path (which it has just renamed
away) instead of an unsupported-format error. -/
theorem c7_counterexample :
    (ensurePdf2 ⟨none, true, none, true⟩ "file.xyz" "up/f").result =
      Except.ok "up/f" := by
  decide

/-- C7 (amended): for an extension that is neither `.pdf` nor a recognized
image or office-document extension, variant 1's `ensurePdf` throws the
unhandled-extension error, but variant 2's `ensurePdf` succeeds, returning
the original path without error. -/
theorem c7_unknown_extension (env : ConvEnv) (name fpath : String)
    (hpdf : jsToLower (jsExtname name) ≠ ".pdf")
    (hdoc : jsToLower (jsExtname name) ∉ DOC_EXTENSIONS)
    (himg : jsToLower (jsExtname name) ∉ IMG_EXTENSIONS) :
    (ensurePdf1 env name fpath).result =
      Except.error ("Unhandled file extension in processing: " ++
        jsToLower (jsExtname name))
    ∧ (ensurePdf2 env name fpath).result = Except.ok fpath := by
  constructor <;> simp [ensurePdf1, ensurePdf2, hpdf, hdoc, himg]

/-- C7 witness: instantiation of `c7_unknown_extension` at extension
`.xyz`. -/
theorem c7_unknown_extension_witness :
    (jsToLower (jsExtname "file.xyz") ≠ ".pdf"
      ∧ jsToLower (jsExtname "file.xyz") ∉ DOC_EXTENSIONS
      ∧ jsToLower (jsExtname "file.xyz") ∉ IMG_EXTENSIONS)
    ∧ ((ensurePdf1 ⟨none, true, none, true⟩ "file.xyz" "up/f").result =
        Except.error ("Unhandled file extension in processing: " ++
          jsToLower (jsExtname "file.xyz"))
      ∧ (ensurePdf2 ⟨none, true, none, true⟩ "file.xyz" "up/f").result =
        Except.ok "up/f") :=
  ⟨⟨by decide, by decide, by decide⟩,
    c7_unknown_extension ⟨none, true, none, true⟩ "file.xyz" "up/f"
      (by decide) (by decide) (by decide)⟩

/-- C8 counterexample: when the conversion subprocess fails, the thrown
error propagates before the unlink statement, so the renamed intermediate
input (created by the rename) is NOT deleted — refuting deleted
regardless of outcome. -/
theorem c8_counterexample :
    (ensurePdf1 ⟨some "boom", true, none, true⟩ "a.docx" "p").renames =
      [("p", "p.docx")]
    ∧ (ensurePdf1 ⟨some "boom", true, none, true⟩ "a.docx" "p").result =
      Except.error "LibreOffice conversion failed. Is it installed? Details: boom"
    ∧ (ensurePdf1 ⟨some "boom", true, none, true⟩ "a.docx" "p").unlinks = [] := by
  decide

/-- C8 (amended): for an office-document extension, normalization fails
exactly when the conversion tool reports an error or the expected output is
absent; the renamed intermediate input is deleted only when the conversion
succeeded — on failure the thrown error skips the unlink and the
intermediate file remains. -/
theorem c8_doc_conversion (env : ConvEnv) (name fpath : String)
    (hdoc : jsToLower (jsExtname name) ∈ DOC_EXTENSIONS) :
    ((env.docExecError = none ∧ env.docOutputExists = true) →
      (ensurePdf1 env name fpath).result = Except.ok (fpath ++ ".converted.pdf")
      ∧ (ensurePdf1 env name fpath).unlinks =
          [fpath ++ jsToLower (jsExtname name)])
    ∧ ((env.docExecError ≠ none ∨ env.docOutputExists = false) →
      (∃ m, (ensurePdf1 env name fpath).result = Except.error m)
      ∧ (ensurePdf1 env name fpath).unlinks = []) := by
  have hpdf : jsToLower (jsExtname name) ≠ ".pdf" := doc_mem_ne_pdf _ hdoc
  constructor
  · rintro ⟨h1, h2⟩
    constructor <;>
      simp [ensurePdf1, hpdf, hdoc, convertDocWithLibreOffice1, h1, h2]
  · intro h
    cases hde : env.docExecError with
    | some e =>
        constructor
        · refine ⟨"LibreOffice conversion failed. Is it installed? Details: " ++ e, ?_⟩
          simp [ensurePdf1, hpdf, hdoc, convertDocWithLibreOffice1, hde]
        · simp [ensurePdf1, hpdf, hdoc, convertDocWithLibreOffice1, hde]
    | none =>
        have h2 : env.docOutputExists = false := by
          rcases h with h | h
          · exact absurd hde h
          · exact h
        constructor
        · refine ⟨"LibreOffice finished but output PDF was not found.", ?_⟩
          simp [ensurePdf1, hpdf, hdoc, convertDocWithLibreOffice1, hde, h2]
        · simp [ensurePdf1, hpdf, hdoc, convertDocWithLibreOffice1, hde, h2]

/-- C8 witness: instantiation of `c8_doc_conversion` at extension `.docx`
with a successful conversion environment. -/
theorem c8_doc_conversion_witness :
    jsToLower (jsExtname "a.docx") ∈ DOC_EXTENSIONS
    ∧ ((((⟨none, true, none, true⟩ : ConvEnv).docExecError = none ∧
          (⟨none, true, none, true⟩ : ConvEnv).docOutputExists = true) →
        (ensurePdf1 ⟨none, true, none, true⟩ "a.docx" "p").result =
          Except.ok ("p" ++ ".converted.pdf")
        ∧ (ensurePdf1 ⟨none, true, none, true⟩ "a.docx" "p").unlinks =
            ["p" ++ jsToLower (jsExtname "a.docx")])
      ∧ (((⟨none, true, none, true⟩ : ConvEnv).docExecError ≠ none ∨
          (⟨none, true, none, true⟩ : ConvEnv).docOutputExists = false) →
        (∃ m, (ensurePdf1 ⟨none, true, none, true⟩ "a.docx" "p").result =
          Except.error m)
        ∧ (ensurePdf1 ⟨none, true, none, true⟩ "a.docx" "p").unlinks = [])) :=
  ⟨by decide, c8_doc_conversion ⟨none, true, none, true⟩ "a.docx" "p" (by decide)⟩

/-- C6 counterexample: two uploaded files where one has an unsupported
extension do NOT yield one success entry, one error entry and a partial
status — multer's file filter rejects the whole request with a 400 before
any file is processed. -/
theorem c6_counterexample :
    printEndpoint1 [⟨"a.pdf", FileOutcome.success "up/a"⟩,
        ⟨"b.xyz", FileOutcome.success "up/b"⟩] = ⟨400, false, [], []⟩
    ∧ ¬ ((printEndpoint1 [⟨"a.pdf", FileOutcome.success "up/a"⟩,
        ⟨"b.xyz", FileOutcome.success "up/b"⟩]).results.length = 1
      ∧ (printEndpoint1 [⟨"a.pdf", FileOutcome.success "up/a"⟩,
        ⟨"b.xyz", FileOutcome.success "up/b"⟩]).errors.length = 1) := by
  decide

/-- C6 (amended): a failure on one file never aborts the others in either
variant.  In variant 1, for a batch whose files all pass the extension
filter, each file contributes exactly one entry (a result on success, an
error otherwise) and the aggregate status is 500 when everything failed,
207 (partial) when something failed and something succeeded, 200 otherwise;
a file with an unsupported extension instead rejects the whole request as a
400 client error with no per-file entries.  In variant 2 the response never
reports failures: the handler always answers 200 success, its results are
exactly one entry per successful file in batch order (so later files are
processed even after an earlier failure), and failed files are absent from
the response altogether. -/
theorem c6_batch_isolation (files : List FileReq) (J W : String)
    (st : List (String × JobData)) (hne : files ≠ []) :
    (files.all (fun f => fileFilterAccepts f.originalname) = true →
      (printEndpoint1 files).results.length =
        (files.filter (fun f => isSuccess f.outcome)).length
      ∧ (printEndpoint1 files).errors.length =
        (files.filter (fun f => !isSuccess f.outcome)).length
      ∧ (printEndpoint1 files).status =
          (if 0 < (files.filter (fun f => !isSuccess f.outcome)).length ∧
              (files.filter (fun f => isSuccess f.outcome)).length = 0 then 500
           else if 0 < (files.filter (fun f => !isSuccess f.outcome)).length
           then 207 else 200))
    ∧ (files.all (fun f => fileFilterAccepts f.originalname) = false →
      printEndpoint1 files = ⟨400, false, [], []⟩)
    ∧ (printEndpoint2 J W st files).1 =
        ⟨200, true, (files.map successEntry).flatten⟩ := by
  have hie : files.isEmpty = false := by
    cases files with
    | nil => exact absurd rfl hne
    | cons a l => rfl
  refine ⟨?_, ?_, ?_⟩
  · intro hacc
    have hres := processBatch1_results_length files
    have herr := processBatch1_errors_length files
    simp only [printEndpoint1, hacc, hie, if_true, Bool.false_eq_true,
      if_false, reduceIte]
    by_cases h1 : 0 < (processBatch1 files).2.length ∧
        (processBatch1 files).1.length = 0
    · have h1' : 0 < (files.filter (fun f => !isSuccess f.outcome)).length ∧
          (files.filter (fun f => isSuccess f.outcome)).length = 0 := by
        rw [← hres, ← herr]; exact h1
      rw [if_pos h1, if_pos h1']
      exact ⟨hres, herr, rfl⟩
    · have h1' : ¬ (0 < (files.filter (fun f => !isSuccess f.outcome)).length ∧
          (files.filter (fun f => isSuccess f.outcome)).length = 0) := by
        rw [← hres, ← herr]; exact h1
      rw [if_neg h1, if_neg h1']
      by_cases h2 : 0 < (processBatch1 files).2.length
      · have h2' : 0 < (files.filter (fun f => !isSuccess f.outcome)).length := by
          rw [← herr]; exact h2
        rw [if_pos h2, if_pos h2']
        exact ⟨hres, herr, rfl⟩
      · have h2' : ¬ 0 < (files.filter (fun f => !isSuccess f.outcome)).length := by
          rw [← herr]; exact h2
        rw [if_neg h2, if_neg h2']
        exact ⟨hres, herr, rfl⟩
  · intro hrej
    simp only [printEndpoint1, hrej, Bool.false_eq_true, if_false, reduceIte]
  · simp only [printEndpoint2, hie, Bool.false_eq_true, if_false, reduceIte]
    rw [processFiles2_results J W files st]

/-- Concrete batch used by the C6 witness: one success and one print
failure. -/
def c6filesW : List FileReq :=
  [⟨"a.pdf", FileOutcome.success "up/a"⟩,
   ⟨"b.pdf", FileOutcome.printFail "up/b" "boom"⟩]

/-- C6 witness: instantiation of `c6_batch_isolation` on a two-file batch
where the second file fails: variant 2 still answers 200 success and its
results list is exactly the one success entry. -/
theorem c6_batch_isolation_witness :
    c6filesW ≠ []
    ∧ (printEndpoint2 "J" "http://h" [] c6filesW).1 =
        ⟨200, true, (c6filesW.map successEntry).flatten⟩ :=
  ⟨by decide, (c6_batch_isolation c6filesW "J" "http://h" [] (by decide)).2.2⟩

end PrinServer
